import Mathlib

/-!
Verification development for the unstructured-RAG retrieval tool
(`agent_toteat/tools/tool_unstructured.py`): document kinds, extraction
sectioning, the sliding-window chunker, the in-memory index store, query
routing, per-document ranking with global fusion, the confidence gate and
the answer composer.

Modelling conventions:
* Python machine floats appear only in embedding vectors, cosine scores and
  configuration thresholds; the embedding models vectors as lists of
  rationals and the cosine similarity (`QueryEngine._cosine_sim`) as an
  opaque score function supplied by the environment, since floating-point
  rounding is outside the scope of this development.  All ranking,
  truncation and thresholding logic is over those rational scores.
* The process environment (files on disk, the python-docx / PyPDF2 parsers
  and the SBERT embedder) is a record of functions `Env`; file contents and
  stat metadata are bundled in one `File` record and `Path.resolve` is the
  identity on path strings.
* CPython's `list.sort(key=..., reverse=True)` is a stable sort that keeps
  equal-keyed elements in their original order; `np.argsort` is modelled
  with the same stable order on ties (NumPy's default quicksort leaves the
  tie order unspecified).
-/

namespace UnstructuredTool

/-- Supported document formats (`Kind = Literal["md", "docx", "pdf"]`). -/
inductive Kind where
  | md
  | docx
  | pdf
deriving DecidableEq, Repr

/-- A reference to one corpus document (`DocumentRef`). -/
structure DocumentRef where
  path : String
  kind : Kind
deriving DecidableEq, Repr

/-- One chunk of text together with its metadata (`Chunk`; the source keeps
`meta = {path, locator, idx_local}` as a string dictionary). -/
structure Chunk where
  text : String
  path : String
  locator : String
  idxLocal : String
deriving DecidableEq, Repr

/-- A fully indexed document (`IndexedDoc`): staleness etag, kind, chunks
and the embedding matrix, one row per chunk. -/
structure IndexedDoc where
  etag : String
  kind : Kind
  chunks : List Chunk
  embeddings : List (List ℚ)
deriving DecidableEq, Repr

/-- One search hit (`Result`): `source = path#locator`, the similarity
score and the chunk text. -/
structure Result where
  source : String
  score : ℚ
  snippet : String
deriving DecidableEq, Repr

/-- Stat metadata and contents of one file on disk; `mtime` is the integer
part of `st_mtime` and `size` is `st_size`. -/
structure File where
  mtime : Int
  size : Nat
  content : String
deriving DecidableEq, Repr

/-- The process environment: the file system plus the collaborator
capabilities (binary-format text extraction, the sentence embedder, and
`QueryEngine._cosine_sim`, whose float arithmetic is modelled as an opaque
rational-valued score function). -/
structure Env where
  fs : String → Option File
  docxText : String → Except String String
  pdfText : String → Except String String
  embedOne : String → List ℚ
  embedQuery : String → List ℚ
  sim : List ℚ → List ℚ → ℚ

/-- Per-kind sliding-window parameters (`ChunkingConfig`). -/
structure ChunkingConfig where
  tokens : Nat
  overlap : Nat
deriving DecidableEq, Repr

/-- The tool configuration read from the environment: the static corpus
list (`UNSTRUCTURED_FILES`), the default `top_k`, the similarity threshold
(read but unused by `search`), the `MIN_ACCEPTED` confidence floor and the
three per-kind chunking configurations. -/
structure Config where
  defaultFiles : List String
  topKDefault : Int
  threshold : ℚ
  minAccepted : ℚ
  md : ChunkingConfig
  docx : ChunkingConfig
  pdf : ChunkingConfig

/-- The configuration defaults hard-coded in the source
(`TOP_K_DEFAULT = 40`, `THRESHOLD = 0.22`, `MIN_ACCEPTED = 0.20`,
`MD 176/80`, `DOCX 160/64`, `PDF 224/96`, empty corpus list). -/
def defaultConfig : Config :=
  { defaultFiles := []
    topKDefault := 40
    threshold := mkRat 11 50
    minAccepted := mkRat 1 5
    md := ⟨176, 80⟩
    docx := ⟨160, 64⟩
    pdf := ⟨224, 96⟩ }

/-! ## Python string primitives used by the extractors and the chunker -/

/-- Splitting a character list at every occurrence of one character
(`str.split` with a one-character separator), accumulating the current
piece in reverse. -/
def splitCharGo (c : Char) : List Char → List Char → List (List Char)
  | [], acc => [acc.reverse]
  | x :: xs, acc =>
    if x = c then acc.reverse :: splitCharGo c xs []
    else splitCharGo c xs (x :: acc)

/-- `s.split(c)` for a one-character separator. -/
def splitOnChar (c : Char) (s : String) : List String :=
  (splitCharGo c s.data []).map String.mk

/-- Splitting a character list at every character satisfying a predicate. -/
def splitWhenGo (p : Char → Bool) : List Char → List Char → List (List Char)
  | [], acc => [acc.reverse]
  | x :: xs, acc =>
    if p x then acc.reverse :: splitWhenGo p xs []
    else splitWhenGo p xs (x :: acc)

/-- Python `s.strip()`: remove leading and trailing whitespace. -/
def strTrim (s : String) : String :=
  String.mk
    (((s.data.dropWhile Char.isWhitespace).reverse.dropWhile
      Char.isWhitespace).reverse)

/-- Python `s.lower()` (ASCII case mapping). -/
def strToLower (s : String) : String := String.mk (s.data.map Char.toLower)

/-- Boolean list-prefix test. -/
def isPrefixList : List Char → List Char → Bool
  | [], _ => true
  | _ :: _, [] => false
  | a :: as, b :: bs => a = b && isPrefixList as bs

/-- Python `s.startswith(pat)`. -/
def strStartsWith (s pat : String) : Bool := isPrefixList pat.data s.data

/-- Whether `pat` occurs as a contiguous sublist. -/
def containsSubGo (pat : List Char) : List Char → Bool
  | [] => isPrefixList pat []
  | c :: rest => isPrefixList pat (c :: rest) || containsSubGo pat rest

/-- Python `re.findall(r"\S+", s)` and `s.split()`: the maximal runs of
non-whitespace characters. -/
def pyWords (s : String) : List String :=
  ((splitWhenGo Char.isWhitespace s.data []).map String.mk).filter (· ≠ "")

/-- Python `s.splitlines()` restricted to `\n` separators: like
`splitOn "\n"` except that a trailing newline does not produce a final
empty line, and the empty string has no lines. -/
def pySplitlines (s : String) : List String :=
  let l := splitOnChar '\n' s
  match l.reverse with
  | "" :: rest => rest.reverse
  | _ => l

/-- Python `range(0, n, step)` for a positive step, as the list of window
start offsets: the multiples of `step` below `n`. -/
def pyRange (n step : Nat) : List Nat :=
  if step = 0 then []
  else (List.range ((n + step - 1) / step)).map (· * step)

/-- Python list slicing `xs[:k]` for an `int` bound `k`: a non-negative
bound keeps the first `k` elements, a negative bound drops the last `|k|`
elements. -/
def pySliceTake {α : Type} (k : Int) (xs : List α) : List α :=
  if 0 ≤ k then xs.take k.toNat else xs.take (xs.length - (-k).toNat)

/-! ## Chunker (`Chunker._split_section` / `Chunker.chunk`) -/

/-- The body of the `for start in range(...)` loop of
`Chunker._split_section`: slice `tokens` words starting at each offset,
breaking on the first empty slice. -/
def splitLoop (words : List String) (tokens : Nat) : List Nat → List String
  | [] => []
  | start :: rest =>
    let piece := (words.drop start).take tokens
    if piece = [] then []
    else (" ".intercalate piece) :: splitLoop words tokens rest

/-- `Chunker._split_section`: whitespace-tokenize the section and slide a
window of `tokens` words with step `max(1, tokens - overlap)`. -/
def splitSection (tokens overlap : Nat) (sec : String) : List String :=
  let words := pyWords sec
  let step := max 1 (tokens - overlap)
  splitLoop words tokens (pyRange words.length step)

/-- `Chunker.chunk`: chunk every section independently; section numbers
start at 1 (`section-{i}`) and `idx_local` numbers the pieces of one
section from 0. -/
def chunkSections (cfg : ChunkingConfig) (sections : List String) (path : String) :
    List Chunk :=
  (sections.enum.map (fun p =>
    ((splitSection cfg.tokens cfg.overlap p.2).enum.map (fun q =>
      Chunk.mk q.2 path ("section-" ++ toString (p.1 + 1)) (toString q.1))))).flatten

/-! ## Extractors (`MarkdownExtractor`, `DocxExtractor`, `PdfExtractor`) -/

/-- The `re.match(r"^##+\s+", line)` test of `MarkdownExtractor.presection`:
at least two leading `#` characters followed by at least one whitespace
character. -/
def isMdHeading (line : String) : Bool :=
  let hashes := line.data.takeWhile (· = '#')
  let rest := line.data.drop hashes.length
  decide (2 ≤ hashes.length) && (match rest with
    | [] => false
    | c :: _ => c.isWhitespace)

/-- The block accumulation loop of `MarkdownExtractor.presection`: start a
new block at each `##` heading, flushing the previous block (joined with
newlines and stripped). -/
def mdBlocks : List String → List String → List String
  | [], current =>
    if current = [] then [] else [strTrim ("\n".intercalate current)]
  | line :: rest, current =>
    if isMdHeading line && !(current = []) then
      strTrim ("\n".intercalate current) :: mdBlocks rest [line]
    else
      mdBlocks rest (current ++ [line])

/-- `MarkdownExtractor.presection`: split at `##` headings and keep the
blocks of more than 5 words. -/
def mdPresection (text : String) : List String :=
  (mdBlocks (pySplitlines text) []).filter (fun b => 5 < (pyWords b).length)

/-- Scanner for one `re.split(r"\n{2,}", ...)` separator: a run of at
least two newline characters; returns the input after the run. -/
def matchNewlineRun : List Char → Option (List Char)
  | '\n' :: '\n' :: rest => some (rest.dropWhile (· = '\n'))
  | _ => none

/-- Scanner for one `re.split(r"\[\[PAGE\s+\d+\]\]", ...)` separator:
the literal `[[PAGE`, whitespace, digits, `]]`; returns the input after
the marker. -/
def matchPageMarker : List Char → Option (List Char)
  | '[' :: '[' :: 'P' :: 'A' :: 'G' :: 'E' :: rest =>
    if (rest.takeWhile Char.isWhitespace) = [] then none
    else
      let r1 := rest.dropWhile Char.isWhitespace
      if (r1.takeWhile Char.isDigit) = [] then none
      else
        match r1.dropWhile Char.isDigit with
        | ']' :: ']' :: r2 => some r2
        | _ => none
  | _ => none

/-- Generic fuelled `re.split` over a separator scanner; the fuel is the
input length, which the scanner always at least consumes one character
of, so the dump branch at fuel 0 is unreachable. -/
def reSplitGo (sep : List Char → Option (List Char)) :
    Nat → List Char → List Char → List (List Char)
  | 0, cs, acc => [acc.reverse ++ cs]
  | _ + 1, [], acc => [acc.reverse]
  | fuel + 1, c :: rest, acc =>
    match sep (c :: rest) with
    | some rest' => acc.reverse :: reSplitGo sep fuel rest' []
    | none => reSplitGo sep fuel rest (c :: acc)

/-- `re.split` of a separator scanner over a string. -/
def reSplit (sep : List Char → Option (List Char)) (s : String) : List String :=
  (reSplitGo sep (s.data.length + 1) s.data []).map (fun cs => String.mk cs)

/-- `DocxExtractor.presection`: split on runs of two or more newlines,
strip each part and keep the parts of more than 5 words. -/
def docxPresection (text : String) : List String :=
  ((reSplit matchNewlineRun text).filter (fun p => 5 < (pyWords p).length)).map
    strTrim

/-- `PdfExtractor.presection`: split on `[[PAGE n]]` markers, strip each
part and keep the parts of more than 5 words. -/
def pdfPresection (text : String) : List String :=
  ((reSplit matchPageMarker text).filter (fun p => 5 < (pyWords p).length)).map
    strTrim

/-- `TextExtractor.extract_text` dispatched by kind: Markdown files are
read verbatim; the DOCX and PDF extractors call the python-docx and PyPDF2
collaborators (which raise when the library is missing or parsing fails). -/
def extract_text (env : Env) : Kind → String → Except String String
  | .md, content => .ok content
  | .docx, content => env.docxText content
  | .pdf, content => env.pdfText content

/-- `TextExtractor.presection` dispatched by kind. -/
def presection : Kind → String → List String
  | .md, text => mdPresection text
  | .docx, text => docxPresection text
  | .pdf, text => pdfPresection text

/-- `IndexStore._chunk_cfg_for`. -/
def chunkCfgFor (cfg : Config) : Kind → ChunkingConfig
  | .md => cfg.md
  | .docx => cfg.docx
  | .pdf => cfg.pdf

/-! ## File-kind detection (`_detect_kind`) -/

/-- Index of the first occurrence of a character in a list (list length
when absent). -/
def idxOfChar (c : Char) : List Char → Nat
  | [] => 0
  | x :: xs => if x = c then 0 else idxOfChar c xs + 1

/-- `pathlib.PurePath.suffix`: the extension of the final path component,
including the dot; empty when the name has no dot, starts with its only
dot (a hidden file) or ends with the dot. -/
def fileSuffix (path : String) : String :=
  let name := (splitOnChar '/' path).getLastD ""
  let cs := name.data
  if '.' ∈ cs then
    let i := cs.length - 1 - idxOfChar '.' cs.reverse
    if 0 < i ∧ i < cs.length - 1 then String.mk (cs.drop i) else ""
  else ""

/-- `_detect_kind`: map the lower-cased file extension to a kind, raising
`ValueError` for anything else. -/
def detect_kind (path : String) : Except String Kind :=
  let ext := strToLower (fileSuffix path)
  if ext = ".md" then .ok .md
  else if ext = ".docx" then .ok .docx
  else if ext = ".pdf" then .ok .pdf
  else .error ("Formato no soportado: " ++ path)

/-! ## Index store (`IndexStore`) -/

/-- The store state: the Python `dict` from resolved path to
`IndexedDoc`, as an insertion-ordered association list. -/
structure Store where
  indices : List (String × IndexedDoc)
deriving DecidableEq, Repr

/-- The empty store built by `IndexStore.__init__`. -/
def emptyStore : Store := ⟨[]⟩

/-- `dict.get`: first binding of a key, if any. -/
def assocGet : List (String × IndexedDoc) → String → Option IndexedDoc
  | [], _ => none
  | (k, v) :: rest, p => if k = p then some v else assocGet rest p

/-- `dict.__setitem__`: replace the binding in place when the key exists,
append it otherwise. -/
def assocSet : List (String × IndexedDoc) → String → IndexedDoc →
    List (String × IndexedDoc)
  | [], p, v => [(p, v)]
  | (k, w) :: rest, p, v =>
    if k = p then (p, v) :: rest else (k, w) :: assocSet rest p v

/-- The keys of a store, in insertion order. -/
def storeKeys (s : Store) : List String := s.indices.map Prod.fst

/-- `IndexStore._etag_local`: the staleness signature
`f"local-{int(st.st_mtime)}-{st.st_size}"`. -/
def etagLocal (f : File) : String :=
  "local-" ++ toString f.mtime ++ "-" ++ toString f.size

/-- The (re)indexing arm of `IndexStore.ensure_indexed`: extract, section,
chunk, batch-embed, and store the freshly built entry under the path. -/
def reindexDoc (env : Env) (cfg : Config) (store : Store) (doc : DocumentRef)
    (file : File) (etag : String) : Except String (IndexedDoc × Store) :=
  match extract_text env doc.kind file.content with
  | .error e => .error e
  | .ok raw =>
    let sections := presection doc.kind raw
    let chunks := chunkSections (chunkCfgFor cfg doc.kind) sections doc.path
    let embeddings := (chunks.map (·.text)).map env.embedOne
    let idx : IndexedDoc := ⟨etag, doc.kind, chunks, embeddings⟩
    .ok (idx, ⟨assocSet store.indices doc.path idx⟩)

/-- `IndexStore.ensure_indexed`: fail on a missing file; return the cached
entry unchanged when its etag matches the file's current signature;
otherwise rebuild and replace the entry.  `Path.resolve` is modelled as
the identity on path strings. -/
def ensure_indexed (env : Env) (cfg : Config) (store : Store) (doc : DocumentRef) :
    Except String (IndexedDoc × Store) :=
  match env.fs doc.path with
  | none => .error ("FileNotFoundError: " ++ doc.path)
  | some file =>
    let etag := etagLocal file
    match assocGet store.indices doc.path with
    | some hit =>
      if hit.etag = etag then .ok (hit, store)
      else reindexDoc env cfg store doc file etag
    | none => reindexDoc env cfg store doc file etag

/-- `IndexStore.ensure_all_indexed`: index every corpus file in order,
skipping (and not recording) any file whose kind detection or indexing
raises; returns the indexed paths and the final store. -/
def ensure_all_indexed (env : Env) (cfg : Config) (store : Store) :
    List String → List String × Store
  | [] => ([], store)
  | f :: fs =>
    match detect_kind f with
    | .error _ => ensure_all_indexed env cfg store fs
    | .ok k =>
      match ensure_indexed env cfg store ⟨f, k⟩ with
      | .error _ => ensure_all_indexed env cfg store fs
      | .ok (_, store') =>
        let (rest, s) := ensure_all_indexed env cfg store' fs
        (f :: rest, s)

/-! ## Ranking (`QueryEngine`) -/

/-- Stable descending insertion: place the new element before the first
element with a key not larger than its own, so that in the resulting sort
equal-keyed elements keep their original relative order. -/
def insertByDesc {α : Type} (key : α → ℚ) (a : α) : List α → List α
  | [] => [a]
  | x :: xs =>
    if key a < key x then x :: insertByDesc key a xs else a :: x :: xs

/-- Stable sort by a rational key, largest first: the model of CPython's
`list.sort(key=..., reverse=True)` and of the index sort `np.argsort(-sims)`
(ties resolved by original position). -/
def sortByDesc {α : Type} (key : α → ℚ) (l : List α) : List α :=
  l.foldr (insertByDesc key) []

/-- `np.argsort(-sims)`: chunk indices ordered by descending similarity. -/
def argsortDesc (sims : List ℚ) : List Nat :=
  sortByDesc (fun i => sims.getD i 0) (List.range sims.length)

/-- Ceiling division of integers for a positive divisor
(`math.ceil(a / b)`; the Python float division is modelled exactly). -/
def ceilDivInt (a b : Int) : Int := Int.ediv (a + b - 1) b

/-- The local candidate budget of `QueryEngine.search`:
`max(3, min(chunkCount, max(5, ceil(topK / max(1, nCands)) * 2)))`. -/
def kLocal (chunkCount : Nat) (topK : Int) (nCands : Nat) : Int :=
  max 3 (min (chunkCount : Int)
    (max 5 (2 * ceilDivInt topK (max 1 (nCands : Int)))))

/-- The per-document body of the candidate loop of `QueryEngine.search`:
score every chunk, keep the local top `k_local` and emit one `Result` per
kept chunk.  `idx["chunks"][ti]` is in range whenever the invariant
`len(chunks) = len(embeddings)` holds, which every store entry built by
`ensure_indexed` satisfies; the default chunk only pads the model out of
that invariant. -/
def docRows (env : Env) (qv : List ℚ) (topK : Int) (nCands : Nat)
    (idx : IndexedDoc) : List Result :=
  let sims := idx.embeddings.map (env.sim qv)
  let top := (argsortDesc sims).take (kLocal sims.length topK nCands).toNat
  top.map (fun ti =>
    let ch := idx.chunks.getD ti ⟨"", "", "", ""⟩
    Result.mk (ch.path ++ "#" ++ ch.locator) (sims.getD ti 0) ch.text)

/-- The accumulated state of the candidate loop of `QueryEngine.search`. -/
structure SearchAcc where
  store : Store
  rows : List Result
  indexed : List String
  skipped : List String
deriving DecidableEq, Repr

/-- The candidate loop of `QueryEngine.search`: ensure each candidate is
indexed; a candidate that raises is recorded in `skipped` as
`f"{path}: {e}"` (leaving the store unchanged) and the loop continues. -/
def searchRows (env : Env) (cfg : Config) (qv : List ℚ) (topK : Int)
    (nCands : Nat) (store : Store) : List DocumentRef → SearchAcc
  | [] => ⟨store, [], [], []⟩
  | doc :: rest =>
    match ensure_indexed env cfg store doc with
    | .ok (idx, store') =>
      let acc := searchRows env cfg qv topK nCands store' rest
      ⟨acc.store, docRows env qv topK nCands idx ++ acc.rows,
        doc.path :: acc.indexed, acc.skipped⟩
    | .error e =>
      let acc := searchRows env cfg qv topK nCands store rest
      ⟨acc.store, acc.rows, acc.indexed, (doc.path ++ ": " ++ e) :: acc.skipped⟩

/-- The debug payload of a search (`timings_ms` is wall-clock time and is
not modelled). -/
structure Debug where
  indexed : List String
  skipped : List String
deriving DecidableEq, Repr

/-! ## Routing (`QueryEngine._route_candidates`) -/

/-- Kind detection over a list of files, failing on the first unsupported
extension (the list comprehension of `_route_candidates`). -/
def detectRefs : List String → Except String (List DocumentRef)
  | [] => .ok []
  | f :: fs =>
    match detect_kind f with
    | .error e => .error e
    | .ok k =>
      match detectRefs fs with
      | .error e => .error e
      | .ok rest => .ok (⟨f, k⟩ :: rest)

/-- `QueryEngine._route_candidates`: with `scope="files"` and a non-empty
(truthy) file list, resolve exactly those files; in every other case use
the whole configured corpus.  The query is not consulted. -/
def route_candidates (defaultFiles : List String) (query : String)
    (scope : String) (files : Option (List String)) :
    Except String (List DocumentRef) :=
  if scope = "files" then
    match files with
    | some (f :: fs) => detectRefs (f :: fs)
    | _ => detectRefs defaultFiles
  else detectRefs defaultFiles

/-! ## Search (`QueryEngine.search`) -/

/-- `QueryEngine.search`: embed the query, route the candidates, run the
candidate loop, sort all local rows by descending score (stable), truncate
to `top_k`, and derive the low-confidence flag by comparing the top score
(0.0 on an empty result) against `MIN_ACCEPTED`. -/
def search (env : Env) (cfg : Config) (store : Store) (query scope : String)
    (files : Option (List String)) (topK : Int) :
    Except String (List Result × Bool × Debug × Store) :=
  let qv := env.embedQuery query
  match route_candidates cfg.defaultFiles query scope files with
  | .error e => .error e
  | .ok candidates =>
    let acc := searchRows env cfg qv topK candidates.length store candidates
    let fused := pySliceTake topK (sortByDesc (fun r => r.score) acc.rows)
    let maxScore : ℚ := match fused with | [] => 0 | r :: _ => r.score
    .ok (fused, decide (maxScore < cfg.minAccepted),
      ⟨acc.indexed, acc.skipped⟩, acc.store)

/-! ## Answer composition (`QueryEngine.compose_answer`) -/

/-- The snippet truncation of `compose_answer`: strip, and when longer
than 600 characters cut at 600, drop the final word fragment after the
last space (`rsplit(" ", 1)[0]`) and append an ellipsis. -/
def pySnippet (s0 : String) : String :=
  let s := strTrim s0
  if 600 < s.length then
    let t := s.take 600
    let cut := match splitOnChar ' ' t with
      | [one] => one
      | parts => " ".intercalate parts.dropLast
    cut ++ "…"
  else s

/-- The passage-collection loop of `compose_answer`: walk the ranked
results, skip sources already used, and stop once 4 passages are
collected. -/
def composeLoop : List Result → List String → List String → List String
  | [], _, parts => parts
  | r :: rest, seen, parts =>
    if r.source ∈ seen then composeLoop rest seen parts
    else
      let parts' := parts ++ [pySnippet r.snippet]
      if 4 ≤ parts'.length then parts'
      else composeLoop rest (r.source :: seen) parts'

/-- The fixed message returned on an empty result list. -/
def insufficientMsg : String :=
  "No encontré suficiente contexto en los documentos locales para responder con confianza."

/-- `QueryEngine.compose_answer`. -/
def compose_answer (ranked : List Result) : String :=
  match ranked with
  | [] => insufficientMsg
  | _ => "\n\n".intercalate (composeLoop ranked [] [])

/-! ## Entry points (`ToolAdapter.run` and the ADK wrapper) -/

/-- The query response of `ToolAdapter.run`. -/
structure RunOutput where
  best_answer : String
  low_confidence : Bool
  results : List Result
  debug : Debug
deriving DecidableEq, Repr

/-- The scope normalisation `args.get("scope") or "auto"` (a missing or
empty scope falls back to `"auto"`). -/
def normScope : Option String → String
  | none => "auto"
  | some "" => "auto"
  | some s => s

/-- The files normalisation `args.get("files") or None` (a missing or
empty list becomes `None`). -/
def normFiles : Option (List String) → Option (List String)
  | some [] => none
  | f => f

/-- The `top_k` normalisation `int(args.get("top_k") or TOP_K_DEFAULT)`
(missing or zero falls back to the configured default). -/
def normTopK (cfg : Config) : Option Int → Int
  | none => cfg.topKDefault
  | some 0 => cfg.topKDefault
  | some t => t

/-- `ToolAdapter.run`: validate the query, normalise the arguments, search
and compose the answer. -/
def runTool (env : Env) (cfg : Config) (store : Store) (query : String)
    (scope : Option String) (files : Option (List String))
    (topK : Option Int) : Except String RunOutput :=
  let q := strTrim query
  if q = "" then .error "'query' es obligatorio"
  else
    match search env cfg store q (normScope scope) (normFiles files)
        (normTopK cfg topK) with
    | .error e => .error e
    | .ok (res, low, dbg, _) => .ok ⟨compose_answer res, low, res, dbg⟩

/-- The ADK wrapper `tool_unstructured`: defaults `scope="auto"`,
`files=[]`, `top_k=0`; an empty file list is omitted from the arguments
and `top_k=0` means "use the configured default". -/
def tool_unstructured (env : Env) (cfg : Config) (store : Store)
    (query : String) (scope : String := "auto") (files : List String := [])
    (topK : Int := 0) : Except String RunOutput :=
  runTool env cfg store query (some scope)
    (if files = [] then none else some files)
    (if topK = 0 then none else some topK)

/-! ## Output projections (total accessors used to state the claims) -/

/-- The result rows of a search outcome (empty on a hard failure). -/
def searchResults (x : Except String (List Result × Bool × Debug × Store)) :
    List Result :=
  match x with
  | .ok (r, _, _, _) => r
  | .error _ => []

/-- The low-confidence flag of a search outcome (false on a hard failure). -/
def searchLowConf (x : Except String (List Result × Bool × Debug × Store)) :
    Bool :=
  match x with
  | .ok (_, l, _, _) => l
  | .error _ => false

/-- The debug payload of a search outcome. -/
def searchDebug (x : Except String (List Result × Bool × Debug × Store)) :
    Debug :=
  match x with
  | .ok (_, _, d, _) => d
  | .error _ => ⟨[], []⟩

/-- The store produced by an `ensure_indexed` outcome, with the prior
store as the fallback on failure (Python leaves the store untouched when
`ensure_indexed` raises: the dictionary write is its last statement). -/
def ensureStoreD (store : Store)
    (x : Except String (IndexedDoc × Store)) : Store :=
  match x with
  | .ok (_, s) => s
  | .error _ => store

/-- The paths of a routing outcome (empty on a routing failure). -/
def routePaths (x : Except String (List DocumentRef)) : List String :=
  match x with
  | .ok refs => refs.map (·.path)
  | .error _ => []

/-- The result rows of a tool run (empty on a hard failure). -/
def runResults (x : Except String RunOutput) : List Result :=
  match x with
  | .ok o => o.results
  | .error _ => []

/-- The low-confidence flag of a tool run (false on a hard failure). -/
def runLowConf (x : Except String RunOutput) : Bool :=
  match x with
  | .ok o => o.low_confidence
  | .error _ => false

/-- The best answer of a tool run (the error text on a hard failure). -/
def runAnswer (x : Except String RunOutput) : String :=
  match x with
  | .ok o => o.best_answer
  | .error e => e

/-! ## Spec-side definitions

Definitions in this section follow the specification's words, for
comparison against the source-derived definitions above. -/

/-- Substring occurrence, the match relation of the spec's routing
rules. -/
def strContains (s pat : String) : Bool :=
  containsSubGo pat.data s.data

/-- Whether some routing rule has a keyword occurring (case-insensitively)
in the query. -/
def ruleMatches (rules : List (List String × String)) (query : String) : Bool :=
  rules.any (fun r =>
    r.1.any (fun kw => strContains (strToLower query) (strToLower kw)))

/-- The spec's `scope="auto"` router: the documents mapped by the matching
rules, falling back to the whole corpus when no rule matches. -/
def specAutoRoute (rules : List (List String × String)) (corpus : List String)
    (query : String) : List String :=
  let matched := (rules.filter (fun r =>
    r.1.any (fun kw => strContains (strToLower query) (strToLower kw)))).map (·.2)
  if matched = [] then corpus else matched

/-- Modelled from the spec: the ordered `(keyword-set, target-filename)`
routing rule table for `scope="auto"`.  No such table exists in the source
(`QueryEngine._route_candidates` never consults the query); this one rule
is reconstructed from the spec's example of a table/seating keyword mapped
to the seating guide, with the file name taken from the repository's
prompt text. -/
def specRoutingRules : List (List String × String) :=
  [(["mesa"], "data/guia_mesas_md.md")]

/-- The chunking stride claimed by the spec: `tokensPerChunk - overlap`,
falling back to `tokensPerChunk / 2` (rounded down, minimum 1) when that
difference is not positive. -/
def strideSpec (tokens overlap : Nat) : Nat :=
  if tokens ≤ overlap then max 1 (tokens / 2) else tokens - overlap

/-- `_split_section` as the spec describes it, with the claimed fallback
stride. -/
def splitSectionSpec (tokens overlap : Nat) (sec : String) : List String :=
  let words := pyWords sec
  splitLoop words tokens (pyRange words.length (strideSpec tokens overlap))

/-- The local candidate budget claimed by the spec:
`max(3, min(chunkCount, ceil(topK / max(1, nCands)) * 2))` (no inner floor
of 5). -/
def kLocalSpec (chunkCount : Nat) (topK : Int) (nCands : Nat) : Int :=
  max 3 (min (chunkCount : Int) (2 * ceilDivInt topK (max 1 (nCands : Int))))

/-- Reference sliding window with an explicit stride `sPred + 1`: the
window of `tokens` words at the front, then recurse past the stride. -/
def chunkWindows (sPred tokens : Nat) : List String → List String
  | [] => []
  | w :: ws =>
    (" ".intercalate ((w :: ws).take tokens)) ::
      chunkWindows sPred tokens ((w :: ws).drop (sPred + 1))
termination_by words => words.length
decreasing_by
  simp [List.length_drop]
  omega

/-! ## Concrete environments used by counterexamples and witnesses -/

/-- An environment whose collaborators are inert: no files, failing binary
extractors, constant embeddings and a constant similarity of 1/2. -/
def envEmpty : Env :=
  { fs := fun _ => none
    docxText := fun _ => .error "python-docx no está instalado"
    pdfText := fun _ => .error "PyPDF2 no está instalado"
    embedOne := fun _ => [1]
    embedQuery := fun _ => [1]
    sim := fun _ _ => mkRat 1 2 }

/-- A file system with one ten-word Markdown document. -/
def envTen : Env :=
  { envEmpty with
    fs := fun p =>
      if p = "d.md" then some ⟨1, 1, "w1 w2 w3 w4 w5 w6 w7 w8 w9 w10"⟩
      else none }

/-- A configuration whose corpus is that one document, chunked one word
per chunk, so that it indexes into exactly ten chunks. -/
def cfgTen : Config :=
  { defaultConfig with defaultFiles := ["d.md"], md := ⟨1, 0⟩ }

/-- A file system with one healthy seven-word Markdown document
(`a.md`); every other path is missing. -/
def envOne : Env :=
  { envEmpty with
    fs := fun p =>
      if p = "a.md" then some ⟨10, 20, "uno dos tres cuatro cinco seis siete"⟩
      else none }

/-- A corpus of the healthy `a.md` followed by the missing `b.md`. -/
def cfgOneTwo : Config :=
  { defaultConfig with defaultFiles := ["a.md", "b.md"] }

/-- A file system with six distinct one-line Markdown documents. -/
def envSix : Env :=
  { envEmpty with
    fs := fun p =>
      if p ∈ ["a1.md", "a2.md", "a3.md", "a4.md", "a5.md", "a6.md"]
      then some ⟨1, 1, "x"⟩ else none }

/-- The six distinct corpus files of `envSix`. -/
def sixFiles : List String :=
  ["a1.md", "a2.md", "a3.md", "a4.md", "a5.md", "a6.md"]

/-- A corpus declaring the single (everywhere-missing) file `a.md`. -/
def cfgMissing : Config :=
  { defaultConfig with defaultFiles := ["a.md"] }

/-! ## Lemmas about the stable descending sort -/

theorem insertByDesc_length {α : Type} (key : α → ℚ) (a : α) (l : List α) :
    (insertByDesc key a l).length = l.length + 1 := by
  induction l with
  | nil => rfl
  | cons x xs ih =>
    simp only [insertByDesc]
    split <;> simp [ih]

theorem sortByDesc_length {α : Type} (key : α → ℚ) (l : List α) :
    (sortByDesc key l).length = l.length := by
  induction l with
  | nil => rfl
  | cons x xs ih =>
    show (insertByDesc key x (sortByDesc key xs)).length = xs.length + 1
    rw [insertByDesc_length, ih]

theorem mem_insertByDesc {α : Type} (key : α → ℚ) (a b : α) (l : List α) :
    b ∈ insertByDesc key a l ↔ b = a ∨ b ∈ l := by
  induction l with
  | nil => simp [insertByDesc]
  | cons x xs ih =>
    simp only [insertByDesc]
    split
    · simp only [List.mem_cons, ih]
      tauto
    · simp [List.mem_cons]

theorem pairwise_insertByDesc {α : Type} (key : α → ℚ) (a : α) (l : List α)
    (h : l.Pairwise fun x y => key y ≤ key x) :
    (insertByDesc key a l).Pairwise fun x y => key y ≤ key x := by
  induction l with
  | nil => simp [insertByDesc]
  | cons x xs ih =>
    rcases List.pairwise_cons.mp h with ⟨hx, hxs⟩
    simp only [insertByDesc]
    split
    · next hlt =>
      refine List.pairwise_cons.mpr ⟨?_, ih hxs⟩
      intro b hb
      rcases (mem_insertByDesc key a b xs).mp hb with rfl | hbxs
      · exact le_of_lt hlt
      · exact hx b hbxs
    · next hge =>
      push_neg at hge
      refine List.pairwise_cons.mpr ⟨?_, h⟩
      intro b hb
      rcases List.mem_cons.mp hb with rfl | hbxs
      · exact hge
      · exact le_trans (hx b hbxs) hge

theorem sortByDesc_pairwise {α : Type} (key : α → ℚ) (l : List α) :
    (sortByDesc key l).Pairwise fun x y => key y ≤ key x := by
  induction l with
  | nil => exact List.Pairwise.nil
  | cons x xs ih => exact pairwise_insertByDesc key x (sortByDesc key xs) ih

theorem filter_insertByDesc {α : Type} (key : α → ℚ) (s : ℚ) (a : α)
    (l : List α) :
    (insertByDesc key a l).filter (fun x => decide (key x = s)) =
      (a :: l).filter (fun x => decide (key x = s)) := by
  induction l with
  | nil => rfl
  | cons x xs ih =>
    simp only [insertByDesc]
    split
    · next hlt =>
      by_cases ha : key a = s
      · by_cases hx : key x = s
        · exact absurd hlt (by rw [ha, hx]; exact lt_irrefl s)
        · simp [List.filter_cons, ha, hx, ih]
      · simp [List.filter_cons, ha, ih]
    · rfl

theorem sortByDesc_filter {α : Type} (key : α → ℚ) (s : ℚ) (l : List α) :
    (sortByDesc key l).filter (fun x => decide (key x = s)) =
      l.filter (fun x => decide (key x = s)) := by
  induction l with
  | nil => rfl
  | cons x xs ih =>
    show (insertByDesc key x (sortByDesc key xs)).filter _ = _
    rw [filter_insertByDesc]
    simp only [List.filter_cons, ih]

theorem pySliceTake_of_nonneg {α : Type} (k : Int) (xs : List α) (h : 0 ≤ k) :
    pySliceTake k xs = xs.take k.toNat := by
  simp [pySliceTake, h]

theorem pySliceTake_nil {α : Type} (k : Int) : pySliceTake k ([] : List α) = [] := by
  simp [pySliceTake]

/-! ## Lemmas about the store's association list -/

theorem assocGet_assocSet_self (l : List (String × IndexedDoc)) (p : String)
    (v : IndexedDoc) : assocGet (assocSet l p v) p = some v := by
  induction l with
  | nil => simp [assocSet, assocGet]
  | cons kv rest ih =>
    obtain ⟨k, w⟩ := kv
    simp only [assocSet]
    by_cases hk : k = p
    · simp [hk, assocGet]
    · simp [hk, assocGet, ih]

theorem assocSet_keys (l : List (String × IndexedDoc)) (p : String)
    (v : IndexedDoc) :
    (assocSet l p v).map Prod.fst =
      (if p ∈ l.map Prod.fst then l.map Prod.fst else l.map Prod.fst ++ [p]) := by
  induction l with
  | nil => simp [assocSet]
  | cons kv rest ih =>
    obtain ⟨k, w⟩ := kv
    simp only [assocSet]
    by_cases hk : k = p
    · simp [hk]
    · simp only [hk, if_false, List.map_cons, ih]
      by_cases hp : p ∈ rest.map Prod.fst
      · simp [hp, Ne.symm hk]
      · simp [hp, Ne.symm hk]

theorem assocGet_none_not_mem (l : List (String × IndexedDoc)) (p : String)
    (h : assocGet l p = none) : ¬p ∈ l.map Prod.fst := by
  induction l with
  | nil => simp
  | cons kv rest ih =>
    obtain ⟨k, w⟩ := kv
    simp only [assocGet] at h
    by_cases hk : k = p
    · simp [hk] at h
    · simp only [hk, if_false] at h
      simp [ih h, Ne.symm hk]

theorem assocGet_some_mem (l : List (String × IndexedDoc)) (p : String)
    (v : IndexedDoc) (h : assocGet l p = some v) : p ∈ l.map Prod.fst := by
  induction l with
  | nil => simp [assocGet] at h
  | cons kv rest ih =>
    obtain ⟨k, w⟩ := kv
    simp only [assocGet] at h
    by_cases hk : k = p
    · simp [hk]
    · simp only [hk, if_false] at h
      simp [ih h]

/-! ## Lemmas about routing -/

theorem route_auto (dfl : List String) (q : String)
    (files : Option (List String)) :
    route_candidates dfl q "auto" files = detectRefs dfl := rfl

theorem route_files_none (dfl : List String) (q : String) :
    route_candidates dfl q "files" none = detectRefs dfl := rfl

theorem route_files_nil (dfl : List String) (q : String) :
    route_candidates dfl q "files" (some []) = detectRefs dfl := rfl

theorem detectRefs_paths (l : List String) (refs : List DocumentRef)
    (h : detectRefs l = .ok refs) : refs.map (·.path) = l := by
  induction l generalizing refs with
  | nil =>
    simp only [detectRefs] at h
    cases h
    rfl
  | cons f fs ih =>
    simp only [detectRefs] at h
    cases hk : detect_kind f with
    | error e => rw [hk] at h; cases h
    | ok k =>
      rw [hk] at h
      cases hr : detectRefs fs with
      | error e => rw [hr] at h; cases h
      | ok rest =>
        rw [hr] at h
        cases h
        simp [ih rest hr]

theorem detectRefs_isOk (l : List String)
    (h : ∀ f ∈ l, (detect_kind f).isOk = true) : (detectRefs l).isOk = true := by
  induction l with
  | nil => rfl
  | cons f fs ih =>
    simp only [detectRefs]
    cases hk : detect_kind f with
    | error e =>
      have := h f (List.mem_cons_self f fs)
      rw [hk] at this
      cases this
    | ok k =>
      cases hr : detectRefs fs with
      | error e =>
        have := ih (fun g hg => h g (List.mem_cons_of_mem f hg))
        rw [hr] at this
        cases this
      | ok rest => rfl

/-! ## Lemmas about the candidate loop -/

theorem searchRows_account (env : Env) (cfg : Config) (qv : List ℚ)
    (topK : Int) (m : Nat) :
    ∀ (cs : List DocumentRef) (store : Store),
      (searchRows env cfg qv topK m store cs).indexed.length +
          (searchRows env cfg qv topK m store cs).skipped.length = cs.length ∧
      ∀ doc ∈ cs,
        doc.path ∈ (searchRows env cfg qv topK m store cs).indexed ∨
        ∃ e, (doc.path ++ ": " ++ e) ∈
          (searchRows env cfg qv topK m store cs).skipped := by
  intro cs
  induction cs with
  | nil => intro store; exact ⟨rfl, by simp⟩
  | cons doc rest ih =>
    intro store
    simp only [searchRows]
    cases h : ensure_indexed env cfg store doc with
    | ok pair =>
      obtain ⟨idx, store'⟩ := pair
      obtain ⟨ihlen, ihmem⟩ := ih store'
      refine ⟨by simpa using by omega, ?_⟩
      intro d hd
      rcases List.mem_cons.mp hd with rfl | hdr
      · exact Or.inl (List.mem_cons_self _ _)
      · rcases ihmem d hdr with hin | ⟨e, he⟩
        · exact Or.inl (List.mem_cons_of_mem _ hin)
        · exact Or.inr ⟨e, he⟩
    | error e =>
      obtain ⟨ihlen, ihmem⟩ := ih store
      refine ⟨by simpa using by omega, ?_⟩
      intro d hd
      rcases List.mem_cons.mp hd with rfl | hdr
      · exact Or.inr ⟨e, List.mem_cons_self _ _⟩
      · rcases ihmem d hdr with hin | ⟨e', he'⟩
        · exact Or.inl hin
        · exact Or.inr ⟨e', List.mem_cons_of_mem _ he'⟩

theorem searchRows_allFail (env : Env) (cfg : Config) (qv : List ℚ)
    (topK : Int) (m : Nat) :
    ∀ (cs : List DocumentRef) (store : Store),
      (∀ doc ∈ cs, (ensure_indexed env cfg store doc).isOk = false) →
      (searchRows env cfg qv topK m store cs).rows = [] ∧
      (searchRows env cfg qv topK m store cs).indexed = [] ∧
      (searchRows env cfg qv topK m store cs).store = store := by
  intro cs
  induction cs with
  | nil => intro store _; exact ⟨rfl, rfl, rfl⟩
  | cons doc rest ih =>
    intro store hfail
    simp only [searchRows]
    cases h : ensure_indexed env cfg store doc with
    | ok pair =>
      have := hfail doc (List.mem_cons_self _ _)
      rw [h] at this
      cases this
    | error e =>
      exact ih store (fun d hd => hfail d (List.mem_cons_of_mem _ hd))

/-! ## Lemmas about `ensure_indexed` -/

theorem reindexDoc_ok (env : Env) (cfg : Config) (store : Store)
    (doc : DocumentRef) (file : File) (etag : String) (idx : IndexedDoc)
    (s : Store) (h : reindexDoc env cfg store doc file etag = .ok (idx, s)) :
    idx.etag = etag ∧ s.indices = assocSet store.indices doc.path idx := by
  simp only [reindexDoc] at h
  cases he : extract_text env doc.kind file.content with
  | error e => rw [he] at h; cases h
  | ok raw =>
    rw [he] at h
    cases h
    exact ⟨rfl, rfl⟩

theorem ensure_indexed_fs_none (env : Env) (cfg : Config) (store : Store)
    (doc : DocumentRef) (h : env.fs doc.path = none) :
    ensure_indexed env cfg store doc = .error ("FileNotFoundError: " ++ doc.path) := by
  simp [ensure_indexed, h]

theorem ensure_indexed_hit (env : Env) (cfg : Config) (store : Store)
    (doc : DocumentRef) (file : File) (hit : IndexedDoc)
    (hfs : env.fs doc.path = some file)
    (hget : assocGet store.indices doc.path = some hit)
    (hetag : hit.etag = etagLocal file) :
    ensure_indexed env cfg store doc = .ok (hit, store) := by
  simp [ensure_indexed, hfs, hget, hetag]

theorem ensure_indexed_miss (env : Env) (cfg : Config) (store : Store)
    (doc : DocumentRef) (file : File)
    (hfs : env.fs doc.path = some file)
    (hget : assocGet store.indices doc.path = none) :
    ensure_indexed env cfg store doc =
      reindexDoc env cfg store doc file (etagLocal file) := by
  simp [ensure_indexed, hfs, hget]

theorem ensure_indexed_stale (env : Env) (cfg : Config) (store : Store)
    (doc : DocumentRef) (file : File) (hit : IndexedDoc)
    (hfs : env.fs doc.path = some file)
    (hget : assocGet store.indices doc.path = some hit)
    (hetag : ¬hit.etag = etagLocal file) :
    ensure_indexed env cfg store doc =
      reindexDoc env cfg store doc file (etagLocal file) := by
  simp [ensure_indexed, hfs, hget, hetag]

theorem ensure_indexed_after_reindex (env : Env) (cfg : Config) (store : Store)
    (doc : DocumentRef) (file : File) (idx : IndexedDoc) (s : Store)
    (hfs : env.fs doc.path = some file)
    (hr : reindexDoc env cfg store doc file (etagLocal file) = .ok (idx, s)) :
    ensure_indexed env cfg s doc = .ok (idx, s) := by
  obtain ⟨hetag, hind⟩ := reindexDoc_ok env cfg store doc file _ idx s hr
  have hget : assocGet s.indices doc.path = some idx := by
    rw [hind]
    exact assocGet_assocSet_self _ _ _
  exact ensure_indexed_hit env cfg s doc file idx hfs hget hetag

/-! ## Lemmas about the chunker -/

theorem pyRange_zero (s : Nat) : pyRange 0 s = [] := by
  unfold pyRange
  cases s with
  | zero => rfl
  | succ s' =>
    rw [if_neg (by omega)]
    rw [Nat.div_eq_of_lt (by omega)]
    rfl

theorem pyRange_cons (n s : Nat) (hs : 1 ≤ s) (hn : 1 ≤ n) :
    pyRange n s = 0 :: (pyRange (n - s) s).map (· + s) := by
  unfold pyRange
  rw [if_neg (by omega), if_neg (by omega)]
  have hcount : (n + s - 1) / s = ((n - s) + s - 1) / s + 1 := by
    rcases le_or_lt n s with h | h
    · have h1 : n - s = 0 := by omega
      rw [h1]
      simp only [Nat.zero_add]
      rw [Nat.div_eq_of_lt (by omega : s - 1 < s)]
      rw [show n + s - 1 = (n - 1) + s by omega,
        Nat.add_div_right _ (by omega : 0 < s),
        Nat.div_eq_of_lt (by omega : n - 1 < s)]
    · have e1 : (n - s) + s - 1 = (n - 1 - s) + s := by omega
      have e2 : n + s - 1 = ((n - 1 - s) + s) + s := by omega
      rw [e1, e2, Nat.add_div_right _ (by omega : 0 < s)]
  rw [hcount, List.range_succ_eq_map]
  simp only [List.map_cons, List.map_map, Nat.zero_mul]
  congr 1
  apply List.map_congr_left
  intro a _
  simp [Function.comp, Nat.succ_mul]

theorem splitLoop_shift (words : List String) (t s : Nat)
    (starts : List Nat) :
    splitLoop words t (starts.map (· + s)) = splitLoop (words.drop s) t starts := by
  induction starts with
  | nil => rfl
  | cons x rest ih =>
    simp only [List.map_cons, splitLoop]
    have hd : words.drop (x + s) = (words.drop s).drop x := by
      rw [List.drop_drop, Nat.add_comm s x]
    rw [hd, ih]

theorem splitLoop_pyRange (t sPred : Nat) (ht : 1 ≤ t) :
    ∀ (n : Nat) (words : List String), words.length ≤ n →
      splitLoop words t (pyRange words.length (sPred + 1)) =
        chunkWindows sPred t words := by
  intro n
  induction n with
  | zero =>
    intro words hw
    have hnil : words = [] := List.length_eq_zero.mp (Nat.le_zero.mp hw)
    subst hnil
    rw [List.length_nil, pyRange_zero]
    simp only [splitLoop, chunkWindows]
  | succ n ih =>
    intro words hw
    cases words with
    | nil =>
      rw [List.length_nil, pyRange_zero]
      simp only [splitLoop, chunkWindows]
    | cons w ws =>
      rw [pyRange_cons _ _ (by omega) (by simp)]
      simp only [splitLoop, List.drop_zero]
      have hpiece : ¬((w :: ws).take t = []) := by
        cases t with
        | zero => omega
        | succ t' => simp
      rw [if_neg hpiece, splitLoop_shift]
      have hrec := ih ((w :: ws).drop (sPred + 1))
        (by simp only [List.length_drop, List.length_cons] at hw ⊢; omega)
      rw [List.length_drop] at hrec
      rw [hrec, chunkWindows]

/-! ## Claim C1 -/

/-- C1 (counterexample): indexing 6 distinct documents sequentially with
`IndexStore.ensure_all_indexed` leaves all 6 entries in the store, not the
3 the claimed `max_docs - 2` batch eviction (with `max_docs = 5`) would
leave: the store has no capacity bound and never evicts. -/
theorem C1_counterexample :
    (ensure_all_indexed envSix defaultConfig emptyStore sixFiles).2.indices.length = 6 ∧
    ¬((ensure_all_indexed envSix defaultConfig emptyStore sixFiles).2.indices.length = 3) := by
  exact ⟨rfl, by decide⟩

/-- C1 (amended): `IndexStore.ensure_indexed` never evicts anything: after
any successful call the store's key set is exactly the previous key set,
extended with the document's path when it was absent. -/
theorem C1_no_eviction (env : Env) (cfg : Config) (store : Store)
    (doc : DocumentRef)
    (hok : (ensure_indexed env cfg store doc).isOk = true) :
    storeKeys (ensureStoreD store (ensure_indexed env cfg store doc)) =
      (if doc.path ∈ storeKeys store then storeKeys store
       else storeKeys store ++ [doc.path]) := by
  cases hfs : env.fs doc.path with
  | none =>
    rw [ensure_indexed_fs_none env cfg store doc hfs] at hok
    exact Bool.noConfusion hok
  | some file =>
    cases hget : assocGet store.indices doc.path with
    | some hit =>
      by_cases hetag : hit.etag = etagLocal file
      · rw [ensure_indexed_hit env cfg store doc file hit hfs hget hetag]
        have hmem : doc.path ∈ storeKeys store :=
          assocGet_some_mem store.indices doc.path hit hget
        show storeKeys store = _
        rw [if_pos hmem]
      · rw [ensure_indexed_stale env cfg store doc file hit hfs hget hetag] at hok ⊢
        cases hr : reindexDoc env cfg store doc file (etagLocal file) with
        | error e => rw [hr] at hok; exact Bool.noConfusion hok
        | ok pair =>
          obtain ⟨idx, s⟩ := pair
          obtain ⟨_, hind⟩ := reindexDoc_ok env cfg store doc file _ idx s hr
          show s.indices.map Prod.fst = _
          rw [hind, assocSet_keys]
          rfl
    | none =>
      rw [ensure_indexed_miss env cfg store doc file hfs hget] at hok ⊢
      cases hr : reindexDoc env cfg store doc file (etagLocal file) with
      | error e => rw [hr] at hok; exact Bool.noConfusion hok
      | ok pair =>
        obtain ⟨idx, s⟩ := pair
        obtain ⟨_, hind⟩ := reindexDoc_ok env cfg store doc file _ idx s hr
        show s.indices.map Prod.fst = _
        rw [hind, assocSet_keys]
        rfl

/-- C1 (witness): the amended no-eviction theorem applied to a concrete
fresh indexing of `a.md` into the empty store. -/
theorem C1_no_eviction_witness :
    (ensure_indexed envOne defaultConfig emptyStore ⟨"a.md", .md⟩).isOk = true ∧
    storeKeys (ensureStoreD emptyStore
        (ensure_indexed envOne defaultConfig emptyStore ⟨"a.md", .md⟩)) =
      (if "a.md" ∈ storeKeys emptyStore then storeKeys emptyStore
       else storeKeys emptyStore ++ ["a.md"]) :=
  ⟨rfl, C1_no_eviction envOne defaultConfig emptyStore ⟨"a.md", .md⟩ rfl⟩

/-! ## Claim C2 -/

/-- C2 (counterexample): with the spec's seating-keyword rule matching the
query "estado de mesa", the source's `scope="auto"` routing still returns
the entire two-document corpus, not the single document mapped by the rule:
`_route_candidates` never consults the query. -/
theorem C2_counterexample :
    ruleMatches specRoutingRules "estado de mesa" = true ∧
    routePaths (route_candidates ["data/guia_mesas_md.md", "data/guia_menus_md.md"]
        "estado de mesa" "auto" none) =
      ["data/guia_mesas_md.md", "data/guia_menus_md.md"] ∧
    specAutoRoute specRoutingRules
        ["data/guia_mesas_md.md", "data/guia_menus_md.md"] "estado de mesa" =
      ["data/guia_mesas_md.md"] ∧
    routePaths (route_candidates ["data/guia_mesas_md.md", "data/guia_menus_md.md"]
        "estado de mesa" "auto" none) ≠
      specAutoRoute specRoutingRules
        ["data/guia_mesas_md.md", "data/guia_menus_md.md"] "estado de mesa" := by
  exact ⟨by decide, rfl, by decide, by decide⟩

/-- C2 (amended): `scope="auto"` ignores the query entirely: for every
query the candidate set is exactly the configured corpus, in order, and in
particular it has the corpus's length (never empty when the corpus is
non-empty). -/
theorem C2_auto_full_corpus (dfl : List String) (q : String)
    (files : Option (List String)) (refs : List DocumentRef)
    (h : detectRefs dfl = .ok refs) :
    route_candidates dfl q "auto" files = .ok refs ∧
    refs.map (·.path) = dfl ∧
    refs.length = dfl.length := by
  refine ⟨(route_auto dfl q files).trans h, detectRefs_paths dfl refs h, ?_⟩
  rw [← detectRefs_paths dfl refs h, List.length_map]

/-- C2 (witness): the amended routing theorem applied to a concrete
one-file corpus. -/
theorem C2_auto_full_corpus_witness :
    detectRefs ["a.md"] = .ok [⟨"a.md", .md⟩] ∧
    (route_candidates ["a.md"] "hola" "auto" none = .ok [⟨"a.md", .md⟩] ∧
      ([(⟨"a.md", .md⟩ : DocumentRef)].map (·.path) = ["a.md"]) ∧
      [(⟨"a.md", .md⟩ : DocumentRef)].length = ["a.md"].length) :=
  ⟨rfl, C2_auto_full_corpus ["a.md"] "hola" none [⟨"a.md", .md⟩] rfl⟩

/-! ## Claim C3 -/

/-- C3 (counterexample): an unsupported-kind candidate does fail the whole
query: with `scope="files"` and the file `a.txt`, kind detection raises
inside `_route_candidates`, before the per-candidate loop, and the
`ValueError` surfaces to the caller instead of being recorded in
`debug.skipped`. -/
theorem C3_counterexample :
    runTool envOne cfgOneTwo emptyStore "hola" (some "files") (some ["a.txt"]) none =
      .error "Formato no soportado: a.txt" ∧
    (runTool envOne cfgOneTwo emptyStore "hola" (some "files") (some ["a.txt"]) none).isOk
      = false := by
  exact ⟨rfl, rfl⟩

/-- C3 (amended): once routing has produced the candidate list, failures
are isolated per candidate: the search never hard-fails, every candidate
is accounted for (indexed plus skipped counts equal the candidate count),
and each candidate either lands in `debug.indexed` or appears in
`debug.skipped` tagged with its error. -/
theorem C3_isolation (env : Env) (cfg : Config) (store : Store)
    (q scope : String) (files : Option (List String)) (topK : Int)
    (cs : List DocumentRef)
    (hroute : route_candidates cfg.defaultFiles q scope files = .ok cs) :
    (search env cfg store q scope files topK).isOk = true ∧
    (searchDebug (search env cfg store q scope files topK)).indexed.length +
        (searchDebug (search env cfg store q scope files topK)).skipped.length
      = cs.length ∧
    ∀ doc ∈ cs,
      doc.path ∈ (searchDebug (search env cfg store q scope files topK)).indexed ∨
      ∃ e, (doc.path ++ ": " ++ e) ∈
        (searchDebug (search env cfg store q scope files topK)).skipped := by
  obtain ⟨hlen, hmem⟩ :=
    searchRows_account env cfg (env.embedQuery q) topK cs.length cs store
  simp only [search, hroute]
  exact ⟨rfl, hlen, hmem⟩

/-- C3 (witness): the isolation theorem applied to a two-candidate corpus
in which `a.md` indexes and `b.md` is missing on disk. -/
theorem C3_isolation_witness :
    route_candidates cfgOneTwo.defaultFiles "hola" "auto" none =
      .ok [⟨"a.md", .md⟩, ⟨"b.md", .md⟩] ∧
    ((search envOne cfgOneTwo emptyStore "hola" "auto" none 40).isOk = true ∧
      (searchDebug (search envOne cfgOneTwo emptyStore "hola" "auto" none 40)).indexed.length +
          (searchDebug (search envOne cfgOneTwo emptyStore "hola" "auto" none 40)).skipped.length
        = [(⟨"a.md", .md⟩ : DocumentRef), ⟨"b.md", .md⟩].length ∧
      ∀ doc ∈ [(⟨"a.md", .md⟩ : DocumentRef), ⟨"b.md", .md⟩],
        doc.path ∈ (searchDebug (search envOne cfgOneTwo emptyStore "hola" "auto" none 40)).indexed ∨
        ∃ e, (doc.path ++ ": " ++ e) ∈
          (searchDebug (search envOne cfgOneTwo emptyStore "hola" "auto" none 40)).skipped) :=
  ⟨rfl, C3_isolation envOne cfgOneTwo emptyStore "hola" "auto" none 40
    [⟨"a.md", .md⟩, ⟨"b.md", .md⟩] rfl⟩

/-! ## Claim C4 -/

/-- C4: `ensure_indexed` is idempotent on an unchanged file: after any
successful call, calling it again on the resulting store returns the very
same entry and the very same store (the cache hit recomputes nothing and
returns the stored `IndexedDocument` unchanged). -/
theorem C4_idempotent_cache_hit (env : Env) (cfg : Config) (store : Store)
    (doc : DocumentRef)
    (hok : (ensure_indexed env cfg store doc).isOk = true) :
    ensure_indexed env cfg
        (ensureStoreD store (ensure_indexed env cfg store doc)) doc =
      ensure_indexed env cfg store doc := by
  cases hfs : env.fs doc.path with
  | none =>
    rw [ensure_indexed_fs_none env cfg store doc hfs] at hok
    exact Bool.noConfusion hok
  | some file =>
    cases hget : assocGet store.indices doc.path with
    | some hit =>
      by_cases hetag : hit.etag = etagLocal file
      · have h1 := ensure_indexed_hit env cfg store doc file hit hfs hget hetag
        rw [h1]
        exact h1
      · rw [ensure_indexed_stale env cfg store doc file hit hfs hget hetag] at hok ⊢
        cases hr : reindexDoc env cfg store doc file (etagLocal file) with
        | error e => rw [hr] at hok; exact Bool.noConfusion hok
        | ok pair =>
          obtain ⟨idx, s⟩ := pair
          exact ensure_indexed_after_reindex env cfg store doc file idx s hfs hr
    | none =>
      rw [ensure_indexed_miss env cfg store doc file hfs hget] at hok ⊢
      cases hr : reindexDoc env cfg store doc file (etagLocal file) with
      | error e => rw [hr] at hok; exact Bool.noConfusion hok
      | ok pair =>
        obtain ⟨idx, s⟩ := pair
        exact ensure_indexed_after_reindex env cfg store doc file idx s hfs hr

/-- C4 (witness): the idempotence theorem applied to a concrete first
indexing of `a.md` into the empty store. -/
theorem C4_idempotent_cache_hit_witness :
    (ensure_indexed envOne defaultConfig emptyStore ⟨"a.md", .md⟩).isOk = true ∧
    ensure_indexed envOne defaultConfig
        (ensureStoreD emptyStore
          (ensure_indexed envOne defaultConfig emptyStore ⟨"a.md", .md⟩))
        ⟨"a.md", .md⟩ =
      ensure_indexed envOne defaultConfig emptyStore ⟨"a.md", .md⟩ :=
  ⟨rfl, C4_idempotent_cache_hit envOne defaultConfig emptyStore ⟨"a.md", .md⟩ rfl⟩

/-! ## Claim C5 -/

/-- C5 (counterexample): with `tokens = 4` and `overlap = 4` the source
slides with stride `max(1, 4 - 4) = 1`, not the claimed fallback
`tokens / 2 = 2`: on a six-word section the code yields six windows where
the claimed stride would yield three. -/
theorem C5_counterexample :
    splitSection 4 4 "a b c d e f" =
      ["a b c d", "b c d e", "c d e f", "d e f", "e f", "f"] ∧
    splitSectionSpec 4 4 "a b c d e f" = ["a b c d", "c d e f", "e f"] ∧
    splitSection 4 4 "a b c d e f" ≠ splitSectionSpec 4 4 "a b c d e f" := by
  exact ⟨rfl, rfl, by decide⟩

/-- C5 (amended): `_split_section` slides a window of `tokens` words with
stride `max(1, tokens - overlap)`: when `tokens - overlap ≤ 0` the stride
falls back to 1 (not `tokens / 2`), which still guarantees forward
progress and termination. -/
theorem C5_stride_fallback (tokens overlap : Nat) (sec : String)
    (ht : 1 ≤ tokens) :
    splitSection tokens overlap sec =
      chunkWindows (max 1 (tokens - overlap) - 1) tokens (pyWords sec) := by
  have key := splitLoop_pyRange tokens (max 1 (tokens - overlap) - 1) ht
    (pyWords sec).length (pyWords sec) le_rfl
  rw [show max 1 (tokens - overlap) - 1 + 1 = max 1 (tokens - overlap) by
    omega] at key
  exact key

/-- C5 (witness): the amended stride theorem applied at the degenerate
configuration `tokens = overlap = 4` on a concrete section. -/
theorem C5_stride_fallback_witness :
    1 ≤ 4 ∧
    splitSection 4 4 "a b c" = chunkWindows (max 1 (4 - 4) - 1) 4 (pyWords "a b c") :=
  ⟨by decide, C5_stride_fallback 4 4 "a b c" (by decide)⟩

/-! ## Claim C6 -/

/-- C6 (counterexample): searching one ten-chunk document with `top_k = 1`
selects `max(3, min(10, max(5, 2))) = 5` chunks locally, not the
`max(3, min(10, 2)) = 3` of the claimed formula: the source applies an
extra inner floor of 5 that the claim omits. -/
theorem C6_counterexample :
    (searchRows envTen cfgTen (envTen.embedQuery "mesas") 1 1 emptyStore
        [⟨"d.md", .md⟩]).rows.length = 5 ∧
    kLocalSpec 10 1 1 = 3 ∧
    ¬((searchRows envTen cfgTen (envTen.embedQuery "mesas") 1 1 emptyStore
        [⟨"d.md", .md⟩]).rows.length = (kLocalSpec 10 1 1).toNat) := by
  exact ⟨rfl, rfl, by decide⟩

/-- C6 (amended): the number of chunks a document contributes locally is
`min(kLocal, chunkCount)` for
`k_local = max(3, min(chunkCount, max(5, ceil(topK / max(1, nCands)) * 2)))`
— the claimed formula with the source's extra inner floor of 5. -/
theorem C6_local_budget (env : Env) (qv : List ℚ) (topK : Int) (m : Nat)
    (idx : IndexedDoc) :
    (docRows env qv topK m idx).length =
      min (kLocal idx.embeddings.length topK m).toNat idx.embeddings.length := by
  simp [docRows, argsortDesc, sortByDesc_length, List.length_map,
    List.length_take, List.length_range]

/-! ## Claim C7 -/

/-- C7 (counterexample): `len(results) ≤ top_k` fails for a negative
`top_k`, which the tool never validates: Python's `rows[:-1]` keeps all
but the last row, so searching the ten-chunk document with `top_k = -1`
returns 4 of the 5 local rows, and `4 ≤ -1` is false. -/
theorem C7_counterexample :
    (searchResults (search envTen cfgTen emptyStore "mesas" "auto" none (-1))).length
      = 4 ∧
    ¬(((searchResults
        (search envTen cfgTen emptyStore "mesas" "auto" none (-1))).length : Int)
      ≤ -1) := by
  exact ⟨rfl, by decide⟩

/-- C7 (amended): for every non-negative `top_k`, the results are the
stable descending sort of the concatenated per-document rows truncated to
the first `top_k` entries: they are sorted non-increasingly by score,
number at most `top_k`, and the sort preserves the relative order of
equal-scored rows (ties broken by production order). -/
theorem C7_ranking (env : Env) (cfg : Config) (store : Store)
    (q scope : String) (files : Option (List String)) (topK : Int)
    (cs : List DocumentRef)
    (hroute : route_candidates cfg.defaultFiles q scope files = .ok cs)
    (hk : 0 ≤ topK) :
    List.Pairwise (fun a b : Result => b.score ≤ a.score)
      (searchResults (search env cfg store q scope files topK)) ∧
    ((searchResults (search env cfg store q scope files topK)).length : Int)
      ≤ topK ∧
    searchResults (search env cfg store q scope files topK) =
      (sortByDesc (fun r => r.score)
        (searchRows env cfg (env.embedQuery q) topK cs.length store cs).rows).take
        topK.toNat ∧
    ∀ s : ℚ,
      (sortByDesc (fun r => r.score)
        (searchRows env cfg (env.embedQuery q) topK cs.length store cs).rows).filter
          (fun r => decide (r.score = s)) =
        (searchRows env cfg (env.embedQuery q) topK cs.length store cs).rows.filter
          (fun r => decide (r.score = s)) := by
  have hres : searchResults (search env cfg store q scope files topK) =
      pySliceTake topK (sortByDesc (fun r => r.score)
        (searchRows env cfg (env.embedQuery q) topK cs.length store cs).rows) := by
    simp only [search, hroute, searchResults]
  rw [hres, pySliceTake_of_nonneg _ _ hk]
  refine ⟨?_, ?_, rfl, fun s => sortByDesc_filter _ s _⟩
  · exact List.Pairwise.sublist (List.take_sublist _ _) (sortByDesc_pairwise _ _)
  · calc ((List.take topK.toNat _).length : Int)
        ≤ (topK.toNat : Int) := by exact_mod_cast List.length_take_le _ _
      _ = topK := Int.toNat_of_nonneg hk

/-- C7 (witness): the amended ranking theorem applied to the concrete
ten-chunk document with `top_k = 1`. -/
theorem C7_ranking_witness :
    route_candidates cfgTen.defaultFiles "mesas" "auto" none =
      .ok [⟨"d.md", .md⟩] ∧
    (0 : Int) ≤ 1 ∧
    (List.Pairwise (fun a b : Result => b.score ≤ a.score)
      (searchResults (search envTen cfgTen emptyStore "mesas" "auto" none 1)) ∧
    ((searchResults (search envTen cfgTen emptyStore "mesas" "auto" none 1)).length : Int)
      ≤ 1 ∧
    searchResults (search envTen cfgTen emptyStore "mesas" "auto" none 1) =
      (sortByDesc (fun r => r.score)
        (searchRows envTen cfgTen (envTen.embedQuery "mesas") 1
          [(⟨"d.md", .md⟩ : DocumentRef)].length emptyStore
          [⟨"d.md", .md⟩]).rows).take (1 : Int).toNat ∧
    ∀ s : ℚ,
      (sortByDesc (fun r => r.score)
        (searchRows envTen cfgTen (envTen.embedQuery "mesas") 1
          [(⟨"d.md", .md⟩ : DocumentRef)].length emptyStore
          [⟨"d.md", .md⟩]).rows).filter (fun r => decide (r.score = s)) =
        (searchRows envTen cfgTen (envTen.embedQuery "mesas") 1
          [(⟨"d.md", .md⟩ : DocumentRef)].length emptyStore
          [⟨"d.md", .md⟩]).rows.filter (fun r => decide (r.score = s))) :=
  ⟨rfl, by decide,
    C7_ranking envTen cfgTen emptyStore "mesas" "auto" none 1
      [⟨"d.md", .md⟩] rfl (by decide)⟩

/-! ## Claim C8 -/

/-- C8: for every search that completes (and any positive configured
`MIN_ACCEPTED`), the low-confidence flag is true iff the truncated result
list is empty or the score of its first element is strictly below the
threshold; the source compares the top score — taken as 0.0 on an empty
list — against `MIN_ACCEPTED`. -/
theorem C8_low_confidence (env : Env) (cfg : Config) (store : Store)
    (q scope : String) (files : Option (List String)) (topK : Int)
    (hok : (search env cfg store q scope files topK).isOk = true)
    (hmin : 0 < cfg.minAccepted) :
    (searchLowConf (search env cfg store q scope files topK) = true ↔
      (searchResults (search env cfg store q scope files topK) = [] ∨
        ((searchResults (search env cfg store q scope files topK)).headD
          ⟨"", 0, ""⟩).score < cfg.minAccepted)) := by
  cases hroute : route_candidates cfg.defaultFiles q scope files with
  | error e =>
    rw [show search env cfg store q scope files topK = .error e by
      simp [search, hroute]] at hok
    exact Bool.noConfusion hok
  | ok cs =>
    simp only [search, hroute, searchLowConf, searchResults]
    cases hfused : pySliceTake topK (sortByDesc (fun r => r.score)
        (searchRows env cfg (env.embedQuery q) topK cs.length store cs).rows) with
    | nil => simp [hmin]
    | cons r rest => simp

/-- C8 (witness): the confidence-gate theorem applied to a search over the
default empty corpus. -/
theorem C8_low_confidence_witness :
    (search envEmpty defaultConfig emptyStore "q" "auto" none 40).isOk = true ∧
    (0 : ℚ) < defaultConfig.minAccepted ∧
    (searchLowConf (search envEmpty defaultConfig emptyStore "q" "auto" none 40) = true ↔
      (searchResults (search envEmpty defaultConfig emptyStore "q" "auto" none 40) = [] ∨
        ((searchResults
          (search envEmpty defaultConfig emptyStore "q" "auto" none 40)).headD
          ⟨"", 0, ""⟩).score < defaultConfig.minAccepted)) :=
  ⟨rfl, by decide,
    C8_low_confidence envEmpty defaultConfig emptyStore "q" "auto" none 40 rfl
      (by decide)⟩

/-! ## Claim C9 -/

/-- C9: a run whose candidate set is empty, or in which every candidate
fails indexing, is the fixed terminal state and not an error: `results` is
empty, `low_confidence` is true (for any positive configured threshold)
and `best_answer` is the fixed insufficient-context message. -/
theorem C9_terminal_state (env : Env) (cfg : Config) (store : Store)
    (query : String) (scope : Option String) (files : Option (List String))
    (topK : Option Int) (cs : List DocumentRef)
    (hq : ¬(strTrim query = ""))
    (hroute : route_candidates cfg.defaultFiles (strTrim query)
      (normScope scope) (normFiles files) = .ok cs)
    (hfail : ∀ doc ∈ cs, (ensure_indexed env cfg store doc).isOk = false)
    (hmin : 0 < cfg.minAccepted) :
    (runTool env cfg store query scope files topK).isOk = true ∧
    runResults (runTool env cfg store query scope files topK) = [] ∧
    runLowConf (runTool env cfg store query scope files topK) = true ∧
    runAnswer (runTool env cfg store query scope files topK) = insufficientMsg := by
  obtain ⟨hrows, hind, hst⟩ := searchRows_allFail env cfg
    (env.embedQuery (strTrim query)) (normTopK cfg topK) cs.length cs store hfail
  have hs : search env cfg store (strTrim query) (normScope scope)
      (normFiles files) (normTopK cfg topK) =
      .ok ([], decide ((0 : ℚ) < cfg.minAccepted),
        ⟨[], (searchRows env cfg (env.embedQuery (strTrim query))
          (normTopK cfg topK) cs.length store cs).skipped⟩,
        store) := by
    simp only [search, hroute, hrows, hind, hst]
    rw [show sortByDesc (fun r : Result => r.score) [] = [] from rfl,
      pySliceTake_nil]
  simp only [runTool, if_neg hq, hs, runResults, runLowConf, runAnswer]
  simp [compose_answer, hmin]
  rfl

/-- C9 (witness): the terminal-state theorem applied to a corpus whose
single file is missing on disk, so its only candidate fails indexing. -/
theorem C9_terminal_state_witness :
    ¬(strTrim "hola" = "") ∧
    route_candidates cfgMissing.defaultFiles (strTrim "hola") (normScope none)
      (normFiles none) = .ok [⟨"a.md", .md⟩] ∧
    (∀ doc ∈ [(⟨"a.md", .md⟩ : DocumentRef)],
      (ensure_indexed envEmpty cfgMissing emptyStore doc).isOk = false) ∧
    (0 : ℚ) < cfgMissing.minAccepted ∧
    ((runTool envEmpty cfgMissing emptyStore "hola" none none none).isOk = true ∧
      runResults (runTool envEmpty cfgMissing emptyStore "hola" none none none) = [] ∧
      runLowConf (runTool envEmpty cfgMissing emptyStore "hola" none none none) = true ∧
      runAnswer (runTool envEmpty cfgMissing emptyStore "hola" none none none) =
        insufficientMsg) :=
  ⟨by decide, rfl, by decide, by decide,
    C9_terminal_state envEmpty cfgMissing emptyStore "hola" none none none
      [⟨"a.md", .md⟩] (by decide) rfl (by decide) (by decide)⟩

/-! ## Claim C10 -/

/-- C10: a `scope="files"` call with an empty (or omitted) file list
raises no routing error of its own and silently falls back to the whole
configured corpus: the run is indistinguishable from a `scope="auto"`
call, and routing succeeds whenever every corpus extension is supported. -/
theorem C10_files_empty_fallback (env : Env) (cfg : Config) (store : Store)
    (q : String) (fs2 : List String) (k : Int)
    (hdfl : ∀ f ∈ cfg.defaultFiles, (detect_kind f).isOk = true) :
    tool_unstructured env cfg store q "files" [] k =
      tool_unstructured env cfg store q "auto" fs2 k ∧
    route_candidates cfg.defaultFiles q "files" (some []) =
      route_candidates cfg.defaultFiles q "auto" none ∧
    (route_candidates cfg.defaultFiles q "files" (some [])).isOk = true := by
  refine ⟨rfl, rfl, ?_⟩
  rw [route_files_nil]
  exact detectRefs_isOk cfg.defaultFiles hdfl

/-- C10 (witness): the fallback theorem applied to a concrete one-file
corpus, an arbitrary explicit file list and `top_k = 7`. -/
theorem C10_files_empty_fallback_witness :
    (∀ f ∈ cfgMissing.defaultFiles, (detect_kind f).isOk = true) ∧
    (tool_unstructured envEmpty cfgMissing emptyStore "hola" "files" [] 7 =
        tool_unstructured envEmpty cfgMissing emptyStore "hola" "auto" ["x.md"] 7 ∧
      route_candidates cfgMissing.defaultFiles "hola" "files" (some []) =
        route_candidates cfgMissing.defaultFiles "hola" "auto" none ∧
      (route_candidates cfgMissing.defaultFiles "hola" "files" (some [])).isOk
        = true) :=
  ⟨by decide,
    C10_files_empty_fallback envEmpty cfgMissing emptyStore "hola" ["x.md"] 7
      (by decide)⟩

end UnstructuredTool
